import Mathlib

/-!
Verification of the data-pipeline core of the Smart Agentic web app backend
(`src/Backend/main.py`): the per-file cleaning pipeline, the join-key
detector, the join engine, the command interpreter and the regression
endpoint, shallowly embedded over a pandas-style table model.

Modelling conventions.
A pandas `DataFrame` is a `Table`: a list of column names, a list of
per-column dtype flags (`true` = `object` dtype, `false` = numeric dtype)
and a list of rows, each row a list of `Cell`s.  Floating-point values are
modelled as exact rationals in lowest terms (no claim depends on float
rounding).  Python string operations are modelled by executable functions
over character lists (ASCII model of `lower`/`strip`).  Python's `set` of
column names iterates in a hash-dependent order; the model determinizes it
as first-occurrence order.  Python dicts preserve insertion order, which
association lists model exactly.
-/

namespace SmartAgentic

/-! ### String primitives (Python semantics, character-list based) -/

/-- Whether `pat` occurs at the start of `hay` (character lists). -/
def subAt : List Char → List Char → Bool
  | [], _ => true
  | _ :: _, [] => false
  | a :: as, b :: bs => a == b && subAt as bs

/-- Whether `pat` occurs anywhere inside `hay` (character lists). -/
def hasSubList (pat : List Char) : List Char → Bool
  | [] => pat.isEmpty
  | c :: cs => subAt pat (c :: cs) || hasSubList pat cs

/-- Python's `pat in hay` substring test. -/
def strHasSub (hay pat : String) : Bool := hasSubList pat.toList hay.toList

/-- Python `s.startswith(pre)`. -/
def strStartsWith (s pre : String) : Bool := subAt pre.toList s.toList

/-- Python `s.lower()` (ASCII model). -/
def strLower (s : String) : String := (s.toList.map Char.toLower).asString

/-- Python `s.strip()`: remove whitespace from both ends. -/
def trimStr (s : String) : String :=
  ((s.toList.dropWhile Char.isWhitespace).reverse.dropWhile Char.isWhitespace).reverse.asString

/-- Python `s[n:]`: drop the first `n` characters. -/
def strDrop (s : String) (n : Nat) : String := (s.toList.drop n).asString

/-- Python `s.replace(a, b)` for one-character patterns. -/
def mapChar (a b : Char) (s : String) : String :=
  (s.toList.map (fun c => if c == a then b else c)).asString

/-- Python `s.replace(a, '')` for a one-character pattern. -/
def removeChar (a : Char) (s : String) : String :=
  (s.toList.filter (fun c => !(c == a))).asString

/-- Python `s.split(sep)` for a one-character separator: every occurrence
splits, and the empty string splits to one empty part. -/
def splitOnChar (sep : Char) : List Char → List (List Char)
  | [] => [[]]
  | c :: cs =>
    if c == sep then [] :: splitOnChar sep cs
    else
      match splitOnChar sep cs with
      | [] => [[c]]
      | g :: gs => (c :: g) :: gs

/-- Join string parts with a separator. -/
def intercalateStr (sep : String) : List String → String
  | [] => ""
  | [x] => x
  | x :: y :: rest => x ++ sep ++ intercalateStr sep (y :: rest)

/-- Lexicographic (code-point) string order, as Python compares strings. -/
def lexLe : List Char → List Char → Bool
  | [], _ => true
  | _ :: _, [] => false
  | a :: as, b :: bs => if a == b then lexLe as bs else decide (a.toNat < b.toNat)

/-- Digits of a numeral read left to right. -/
def digitsToNat (l : List Char) : Nat :=
  l.foldl (fun n c => 10 * n + (c.toNat - 48)) 0

/-! ### The table model -/

/-- A rational in lowest terms with positive denominator, the model of a
pandas float.  `mkFrac` is the only constructor the pipeline uses, so
structural equality coincides with value equality on everything the model
computes. -/
structure Frac where
  num : Int
  den : Nat
deriving DecidableEq, Repr

/-- Build the normalized fraction `n / d` (with the junk value `0` for a
zero denominator, which the pipeline never produces). -/
def mkFrac (n : Int) (d : Nat) : Frac :=
  if d = 0 then ⟨0, 1⟩
  else
    let g := Nat.gcd n.natAbs d
    ⟨n / (g : Int), d / g⟩

/-- Cell of a pandas-style table: a missing value (NaN), a string, or a
number. -/
inductive Cell where
  | na : Cell
  | str (s : String) : Cell
  | num (q : Frac) : Cell
deriving DecidableEq, Repr

/-- Whether a cell is missing (pandas `isna`). -/
def Cell.isNa : Cell → Bool
  | .na => true
  | _ => false

/-- A pandas DataFrame: column names, per-column dtype flags
(`true` = `object` dtype), and rows. -/
structure Table where
  names : List String
  dtypes : List Bool
  rows : List (List Cell)
deriving DecidableEq, Repr

/-- The table is rectangular: dtype flags and every row line up with the
column names.  (pandas DataFrames are rectangular by construction.) -/
def Table.Rect (t : Table) : Prop :=
  t.dtypes.length = t.names.length ∧ ∀ r ∈ t.rows, r.length = t.names.length

instance (t : Table) : Decidable t.Rect := by
  unfold Table.Rect; infer_instance

/-- Keep the elements whose index (starting at the given counter) satisfies
the predicate. -/
def filterIdxFrom {α : Type} (p : Nat → Bool) : Nat → List α → List α
  | _, [] => []
  | k, x :: xs => if p k then x :: filterIdxFrom p (k+1) xs else filterIdxFrom p (k+1) xs

/-- Map a function that also receives the element's index (starting at the
given counter). -/
def mapIdxFrom {α : Type} (f : Nat → α → α) : Nat → List α → List α
  | _, [] => []
  | k, x :: xs => f k x :: mapIdxFrom f (k+1) xs

/-! ### The cleaning pipeline (upload loop, lines 101-119) -/

/-- A row is entirely missing (pandas `dropna(how='all')` row criterion).
On a zero-column table every row counts as all-missing, as in pandas. -/
def allNaRow (r : List Cell) : Bool := r.all Cell.isNa

/-- Line 103: `df.dropna(how='all', inplace=True)` — drop fully-empty rows. -/
def dropEmptyRows (t : Table) : Table :=
  { t with rows := t.rows.filter (fun r => !(allNaRow r)) }

/-- Column `j` has at least one non-missing value (reading a short row at a
missing position as NaN). -/
def colKeep (rows : List (List Cell)) (j : Nat) : Bool :=
  rows.any (fun r => !(Cell.isNa (r.getD j Cell.na)))

/-- Line 104: `df.dropna(axis=1, how='all', inplace=True)` — drop
fully-empty columns. -/
def dropEmptyCols (t : Table) : Table :=
  { names := filterIdxFrom (colKeep t.rows) 0 t.names,
    dtypes := filterIdxFrom (colKeep t.rows) 0 t.dtypes,
    rows := t.rows.map (filterIdxFrom (colKeep t.rows) 0) }

/-- Line 105: `df.columns.str.strip().str.replace('\t', ' ').str.replace('\n', ' ')`. -/
def normalizeHeader (s : String) : String :=
  mapChar '\n' ' ' (mapChar '\t' ' ' (trimStr s))

/-- Line 105 applied to the whole header row. -/
def renameHeaders (t : Table) : Table :=
  { t with names := t.names.map normalizeHeader }

/-- Decimal parser modelling `pd.to_numeric` on the strings this pipeline
produces: optional minus sign, digits with at most one decimal point, at
least one digit overall.  (Exponent forms and other exotic float spellings
are accepted by pandas but never produced by the inputs the claims are
about.) -/
def parseDec (s : String) : Option Frac :=
  let cs := s.toList
  let neg := subAt ['-'] cs
  let body := if neg then cs.drop 1 else cs
  let sgn : Int := if neg then -1 else 1
  match splitOnChar '.' body with
  | [a] =>
    if 0 < a.length && a.all Char.isDigit then
      some (mkFrac (sgn * (digitsToNat a : Int)) 1)
    else none
  | [a, b] =>
    if 0 < a.length + b.length && a.all Char.isDigit && b.all Char.isDigit then
      some (mkFrac (sgn * ((digitsToNat a : Int) * ((10 : Nat) ^ b.length : Nat) + (digitsToNat b : Int)))
        ((10 : Nat) ^ b.length))
    else none
  | _ => none

/-- Best-effort model of Python `str()` on a float (integral values print
with a trailing `.0`).  Only `object`-dtype columns feed their values back
through `str()`, and those hold `str` cells in every scenario the claims
exercise. -/
def fracStr (q : Frac) : String :=
  if q.den = 1 then toString q.num ++ ".0"
  else toString q.num ++ "/" ++ toString q.den

/-- Model of pandas `astype(str)` on one cell: NaN prints as `nan`. -/
def Cell.pyStr : Cell → String
  | .na => "nan"
  | .str s => s
  | .num q => fracStr q

/-- Python `s.replace(',', '.')` (pandas `str.replace` with `regex=False`). -/
def commaToDot (s : String) : String := mapChar ',' '.' s

/-- Python `s.replace('.', '')`. -/
def stripDots (s : String) : String := removeChar '.' s

/-- Python `str.isdigit` restricted to ASCII: non-empty and all digits. -/
def pyIsDigit (s : String) : Bool :=
  !(s.toList.isEmpty) && s.toList.all Char.isDigit

/-- Pandas `dropna()` on a column: the non-missing cells. -/
def nonNaCells (l : List Cell) : List Cell := l.filter (fun c => !(c.isNa))

/-- Lines 113-114: sample the first 100 non-missing values and check that
each, after replacing the comma with a point and stripping the point,
consists only of digits. -/
def sampleOk (col : List Cell) : Bool :=
  ((nonNaCells col).take 100).all (fun c => pyIsDigit (stripDots (commaToDot c.pyStr)))

/-- Lines 115-116: `astype(str)`, replace comma with point, then
`pd.to_numeric(..., errors='coerce')` — an unparseable value becomes NaN. -/
def convertCell (c : Cell) : Cell :=
  match parseDec (commaToDot c.pyStr) with
  | some q => .num q
  | none => .na

/-- Column `j` of a table as a list of cells (missing positions read as NaN). -/
def getCol (t : Table) (j : Nat) : List Cell :=
  t.rows.map (fun r => r.getD j Cell.na)

/-- Line 110 and line 114: column `j` is selected for numeric coercion —
it has `object` dtype, at least one non-missing value, and every sampled
value passes the digit test. -/
def coerceCond (t : Table) (j : Nat) : Bool :=
  t.dtypes.getD j false && (nonNaCells (getCol t j)).length > 0 && sampleOk (getCol t j)

/-- Lines 109-119: numeric coercion, applied only to the first 10 columns
(`df.columns[:10]`).  A coerced column becomes numeric dtype.  The loop
mutates one column at a time but each decision reads only that column, so
the simultaneous map is exact.  (Column names are assumed distinct, as
`df[col]` indexes by name.) -/
def coerceNumeric (t : Table) : Table :=
  { names := t.names,
    dtypes := mapIdxFrom
      (fun j d => if decide (j < 10) && coerceCond t j then false else d) 0 t.dtypes,
    rows := t.rows.map (fun r => mapIdxFrom
      (fun j v => if decide (j < 10) && coerceCond t j then convertCell v else v) 0 r) }

/-- Lines 101-105: the cleaning pipeline up to and including header
normalization — drop fully-empty rows, drop fully-empty columns,
normalize headers. -/
def cleanMid (t : Table) : Table :=
  renameHeaders (dropEmptyCols (dropEmptyRows t))

/-- Lines 101-119: the full per-file cleaning pipeline — drop fully-empty
rows, drop fully-empty columns, normalize headers, coerce numeric-like
columns. -/
def cleanTable (t : Table) : Table :=
  coerceNumeric (cleanMid t)

/-- Line 127: `df["source_file"] = file.filename` — tag every row with its
source file (a fresh `object`-dtype column). -/
def addSourceCol (t : Table) (fname : String) : Table :=
  { names := t.names ++ ["source_file"],
    dtypes := t.dtypes ++ [true],
    rows := t.rows.map (fun r => r ++ [.str fname]) }

/-! ### Join-key detection and the join engine (lines 420-476) -/

/-- Line 427: `'id' in col.lower()` — the only prioritization test the
detector applies. -/
def idLikeCode (c : String) : Bool := strHasSub (strLower c) "id"

/-- Line 411: a column name containing one of the keywords `id`, `code`,
`key`, `ref` case-insensitively (used by the `analyze joins` command; it
is also the spec glossary's notion of an identifier-like column). -/
def keywordIdLike (c : String) : Bool :=
  strHasSub (strLower c) "id" || strHasSub (strLower c) "code" ||
    strHasSub (strLower c) "key" || strHasSub (strLower c) "ref"

/-- Deduplicate keeping first occurrences (accumulator holds what was
already seen).  This determinizes the iteration order of the Python `set`
built at lines 423-425 as first-encounter order. -/
def dedupFirst {α : Type} [DecidableEq α] (seen : List α) : List α → List α
  | [] => []
  | x :: xs => if x ∈ seen then dedupFirst seen xs else x :: dedupFirst (x :: seen) xs

/-- Lines 423-425: the set of all column names over all dataframes, in
first-encounter order. -/
def allColumns (dfs : List Table) : List String :=
  dedupFirst [] (dfs.flatMap Table.names)

/-- The empty DataFrame (`pd.DataFrame()`). -/
def emptyTable : Table := ⟨[], [], []⟩

/-- Line 430: `[i for i, df in enumerate(dfs) if col in df.columns]`. -/
def presentIn (dfs : List Table) (c : String) : List Nat :=
  (List.range dfs.length).filter (fun i => decide (c ∈ (dfs.getD i emptyTable).names))

/-- Lines 420-433: `detect_join_keys` — candidate join keys as an
insertion-ordered association list (Python dicts preserve insertion
order): columns containing `id` first, then the remaining columns, each
mapped to the indices of the tables containing it, keeping only columns
present in more than one table. -/
def detect_join_keys (dfs : List Table) : List (String × List Nat) :=
  let allCols := allColumns dfs
  let idCols := allCols.filter idLikeCode
  let prioritized := idCols ++ allCols.filter (fun c => !(idLikeCode c))
  prioritized.filterMap (fun c =>
    let pin := presentIn dfs c
    if pin.length > 1 then some (c, pin) else none)

/-- Lines 447-452: the best-key loop — running best key and running
maximum count, updated on strict improvement only. -/
def bestLoop : Option String × Nat → List (String × List Nat) → Option String × Nat
  | acc, [] => acc
  | (best, maxc), p :: ps =>
    if p.2.length > maxc then bestLoop (some p.1, p.2.length) ps
    else bestLoop (best, maxc) ps

/-- Lines 446-452: pick the candidate with the most files, scanning the
candidate list with a strict-improvement loop started at count 0. -/
def best_join_key (cands : List (String × List Nat)) : Option String :=
  (bestLoop (none, 0) cands).1

/-- Index of a column name (`List.indexOf`; equals the length when absent,
modelling that the callers only use it for present columns). -/
def colIdx (names : List String) (c : String) : Nat := names.indexOf c

/-- The fields of a right-hand row at the non-key columns. -/
def dropKeyFields (rnames : List String) (key : String) (row : List Cell) : List Cell :=
  ((rnames.zip row).filter (fun p => !(decide (p.1 = key)))).map Prod.snd

/-- Lines 459-464: `result_df.merge(df_to_join, on=key, how='inner',
suffixes=('', sfx))` — an inner join keeping only rows whose key value
appears on both sides; right-hand non-key columns colliding with a
left-hand column get the suffix appended (the left side keeps its names).
Pandas matches NaN keys to each other, as does `Cell` equality. -/
def mergeInner (l r : Table) (key sfx : String) : Table :=
  { names := l.names ++
      (r.names.filter (fun c => !(decide (c = key)))).map
        (fun c => if decide (c ∈ l.names) then c ++ sfx else c),
    dtypes := l.dtypes ++
      ((r.names.zip r.dtypes).filter (fun p => !(decide (p.1 = key)))).map Prod.snd,
    rows := l.rows.flatMap (fun lr =>
      (r.rows.filter (fun rr =>
        decide (rr.getD (colIdx r.names key) Cell.na = lr.getD (colIdx l.names key) Cell.na))).map
        (fun rr => lr ++ dropKeyFields r.names key rr)) }

/-- The dtype a concatenation gives a column: taken from the first table
containing it (downstream of cleaning no claim reads dtypes; this fixes a
simple deterministic rule). -/
def dtypeFor (dfs : List Table) (c : String) : Bool :=
  match dfs.find? (fun d => decide (c ∈ d.names)) with
  | some d => d.dtypes.getD (colIdx d.names c) false
  | none => false

/-- `pd.concat(dfs, ignore_index=True)`: stack all rows; the column set is
the union in order of first appearance, and a column absent from a
contributing table is filled with NaN. -/
def concatTables (dfs : List Table) : Table :=
  let unionNames := dedupFirst [] (dfs.flatMap Table.names)
  { names := unionNames,
    dtypes := unionNames.map (dtypeFor dfs),
    rows := dfs.flatMap (fun d => d.rows.map (fun r =>
      unionNames.map (fun c =>
        if decide (c ∈ d.names) then r.getD (colIdx d.names c) Cell.na else Cell.na))) }

/-- Line 463: the suffix stem — `file_names[i].split(".")[0]`, the portion
of the filename before its first dot. -/
def firstDotPart (s : String) : String := ((splitOnChar '.' s.toList).headD []).asString

/-- Line 455: `files_with_key = join_candidates[best_join_key]` — the dict
lookup in the candidate association list. -/
def filesWithKey (dfs : List Table) (bk : String) : List Nat :=
  (((detect_join_keys dfs).find? (fun p => decide (p.1 = bk))).map Prod.snd).getD []

/-- Lines 456-465: the inner-join chain — start from the first table
carrying the key and fold the remaining key-bearing tables in, suffixing
collisions with an underscore plus the joining file's before-the-first-dot
name. -/
def joinChain (dfs : List Table) (fileNames : List String) (bk : String) (fwk : List Nat) : Table :=
  fwk.tail.foldl
    (fun acc i => mergeInner acc (dfs.getD i emptyTable) bk
      ("_" ++ firstDotPart (fileNames.getD i "")))
    (dfs.getD (fwk.headD 0) emptyTable)

/-- Line 467: `[i for i in range(len(dfs)) if i not in files_with_key]`. -/
def remainingFiles (dfs : List Table) (fwk : List Nat) : List Nat :=
  (List.range dfs.length).filter (fun i => !(decide (i ∈ fwk)))

/-- Lines 435-476: `smart_join_dataframes`.  Zero or one table is returned
unchanged; with no candidate the tables are concatenated; otherwise the
best key's tables are chained through inner joins and the tables without
the key are appended by concatenation (lines 466-472: the remaining
tables are concatenated together, then concatenated below the join
result).  Python's `if best_join_key:` is falsy both for `None` and for
the empty string, hence the `= ""` guard. -/
def smart_join_dataframes (dfs : List Table) (fileNames : List String) : Table :=
  if dfs.length ≤ 1 then dfs.headD emptyTable
  else if (detect_join_keys dfs).isEmpty then concatTables dfs
  else
    match best_join_key (detect_join_keys dfs) with
    | none => concatTables dfs
    | some bk =>
      if bk = "" then concatTables dfs
      else if (remainingFiles dfs (filesWithKey dfs bk)).isEmpty then
        joinChain dfs fileNames bk (filesWithKey dfs bk)
      else
        concatTables [joinChain dfs fileNames bk (filesWithKey dfs bk),
          concatTables ((remainingFiles dfs (filesWithKey dfs bk)).map
            (fun i => dfs.getD i emptyTable))]

/-! ### The command interpreter (lines 209-418) -/

/-- Column of a table selected by name (callers guard membership, as
`df[col]` raises for a missing name). -/
def getColByName (t : Table) (c : String) : List Cell :=
  t.rows.map (fun r => r.getD (colIdx t.names c) Cell.na)

/-- A single-quote character, used to reproduce Python message strings. -/
def sq : String := (Char.ofNat 39).toString

/-- Python `repr` of a list of strings, as interpolated into messages. -/
def pyStrList (l : List String) : String :=
  "[" ++ intercalateStr ", " (l.map (fun s => sq ++ s ++ sq)) ++ "]"

/-- Line 222: `column_mapping = {col.lower(): col for col in df.columns}` —
later duplicates overwrite, so lookup returns the last column whose
lowercase form matches. -/
def lookupCol (names : List String) (key : String) : Option String :=
  (names.reverse).find? (fun c => decide (strLower c = key))

/-- The keys of the lowercase column mapping, in dict insertion order. -/
def mappingKeys (names : List String) : List String :=
  dedupFirst [] (names.map strLower)

/-- Line 226: `re.match(r"(show|get)?\s*(\d+)\s*(rows)?", command)` — after
an optional `show`/`get` prefix and optional whitespace there must be at
least one digit; the remaining groups are optional, so nothing further is
required for the match to succeed.  Returns the parsed integer group. -/
def matchRowSlice (s : String) : Option Nat :=
  let cs := if strStartsWith s "show" then s.toList.drop 4
    else if strStartsWith s "get" then s.toList.drop 3 else s.toList
  let ds := (cs.dropWhile Char.isWhitespace).takeWhile Char.isDigit
  if ds.isEmpty then none else some (digitsToNat ds)

/-- Regex fragment `(\d+) (.+)` at the start of a string: greedy digits, a
literal space, then a nonempty remainder (the greedy `.+` captures the
whole rest of the line). -/
def matchNumThenRest (s : String) : Option (Nat × String) :=
  let cs := s.toList
  let ds := cs.takeWhile Char.isDigit
  if ds.isEmpty then none
  else
    match cs.drop ds.length with
    | ' ' :: rest => if rest.isEmpty then none else some (digitsToNat ds, rest.asString)
    | _ => none

/-- Regex fragment `(\d+) ` at the start of a string: greedy digits then a
literal space; returns the number and what follows the space. -/
def matchNumSpace (s : String) : Option (Nat × String) :=
  let cs := s.toList
  let ds := cs.takeWhile Char.isDigit
  if ds.isEmpty then none
  else
    match cs.drop ds.length with
    | ' ' :: rest => some (digitsToNat ds, rest.asString)
    | _ => none

/-- Regex fragment `(.+)lit` (greedy): the longest nonempty prefix of the
string followed immediately by the literal. -/
def lastSplitBefore (rest : String) (lit : String) : Option String :=
  let cs := rest.toList
  let ps := lit.toList
  (((List.range cs.length).filter (fun j => decide (1 ≤ j) && subAt ps (cs.drop j))).getLast?).map
    (fun j => (cs.take j).asString)

/-- Lines 233-237: the three plot command patterns
`plot top (\d+) (.+)`, `plot (\d+) (.+)`, `top (\d+) (.+) plot`,
tried in order; returns the count and the raw column group. -/
def matchPlot (cmd : String) : Option (Nat × String) :=
  match (if strStartsWith cmd "plot top " then matchNumThenRest (strDrop cmd 9) else none) with
  | some nr => some nr
  | none =>
    match (if strStartsWith cmd "plot " then matchNumThenRest (strDrop cmd 5) else none) with
    | some nr => some nr
    | none =>
      if strStartsWith cmd "top " then
        match matchNumSpace (strDrop cmd 4) with
        | some nr => (lastSplitBefore nr.2 " plot").map (fun g2 => (nr.1, g2))
        | none => none
      else none

/-- A Python `\w` word character (ASCII model). -/
def isWordChar (c : Char) : Bool := c.isAlphanum || c == '_'

/-- Regex fragment `(\w+) (\w+)` at the start of a string. -/
def matchWordWord (s : String) : Option (String × String) :=
  let cs := s.toList
  let w1 := cs.takeWhile isWordChar
  if w1.isEmpty then none
  else
    match cs.drop w1.length with
    | ' ' :: rest =>
      let w2 := rest.takeWhile isWordChar
      if w2.isEmpty then none else some (w1.asString, w2.asString)
    | _ => none

/-- Regex fragment `(.+) (.+)` over a whole string, with greedy groups:
split at the last space that leaves at least one character on each side. -/
def lastSpaceSplit (s : String) : Option (String × String) :=
  let cs := s.toList
  (((List.range cs.length).filter (fun j =>
      decide (1 ≤ j) && (cs.getD j ' ' == ' ') && decide (j + 1 < cs.length))).getLast?).map
    (fun j => ((cs.take j).asString, (cs.drop (j+1)).asString))

/-- Regex `(.+) (.+) heatmap` with greedy groups: the first group is
maximized over the space positions whose remainder still matches
`(.+) heatmap`, and the second group is then maximized in turn. -/
def matchTwoThenHeat (cmd : String) : Option (String × String) :=
  let cs := cmd.toList
  let ok : Nat → Option String := fun i => lastSplitBefore ((cs.drop (i+1)).asString) " heatmap"
  match (((List.range cs.length).filter (fun i =>
      decide (1 ≤ i) && (cs.getD i ' ' == ' ') && (ok i).isSome)).getLast?) with
  | none => none
  | some i => (ok i).map (fun g2 => ((cs.take i).asString, g2))

/-- Lines 283-287: the three heatmap command patterns
`heatmap (\w+) (\w+)`, `heatmap (.+) (.+)`, `(.+) (.+) heatmap`,
tried in order; returns the two raw column groups. -/
def matchHeatmap (cmd : String) : Option (String × String) :=
  match (if strStartsWith cmd "heatmap " then matchWordWord (strDrop cmd 8) else none) with
  | some p => some p
  | none =>
    match (if strStartsWith cmd "heatmap " then lastSpaceSplit (strDrop cmd 8) else none) with
    | some p => some p
    | none => matchTwoThenHeat cmd

/-- Result of the `/command` endpoint: the structured JSON bodies the
interpreter can answer with.  Chart rendering is an external collaborator,
so a successful chart request is recorded as its kind and title. -/
inductive CmdOut where
  | error (msg : String)
  | rows (rs : List (List Cell))
  | plot (plotType title : String)
  | colsSummary (cols : List String) (nrows ncols : Nat)
  | filesSummary (files : List (String × Nat)) (totalFiles totalRows : Nat)
  | joinMessage (msg : String)
  | joinAnalysis (perFile : List (String × Nat × Nat × List (String × Nat)))
      (joinCols : List String) (totalFiles totalRows : Nat)
deriving DecidableEq, Repr

/-- Element-wise pandas equality: NaN compares unequal to everything,
including NaN (used by `df[df["source_file"] == v]`). -/
def pandasEqCell (a b : Cell) : Bool := !(a.isNa) && !(b.isNa) && decide (a = b)

/-- String insertion keeping lexicographic (code-point) order. -/
def insertSorted (x : String) : List String → List String
  | [] => [x]
  | y :: ys => if lexLe x.toList y.toList then x :: y :: ys else y :: insertSorted x ys

/-- Lexicographic sort, modelling the sorted group keys of `groupby`. -/
def sortStrings (l : List String) : List String := l.foldr insertSorted []

/-- Lines 367-378: the `files summary` success branch — group the
`source_file` column by value (pandas `groupby` drops NaN keys and sorts
the remaining keys) and report the per-file row counts. -/
def filesSummaryOut (df : Table) : CmdOut :=
  let vals := getColByName df "source_file"
  let keys := sortStrings (dedupFirst [] ((nonNaCells vals).map Cell.pyStr))
  let files := keys.map (fun k =>
    (k, ((nonNaCells vals).filter (fun c => decide (c.pyStr = k))).length))
  .filesSummary files files.length df.rows.length

/-- Lines 389-413: the `analyze joins` success branch — for each distinct
`source_file` value in appearance order, the row count, column count and
per-column distinct-value counts (pandas `nunique`, which ignores NaN),
plus the list of identifier-like columns. -/
def analyzeJoinsOut (df : Table) : CmdOut :=
  let sfIdx := colIdx df.names "source_file"
  let uniq := dedupFirst [] (getColByName df "source_file")
  let perFile := uniq.map (fun v =>
    let sub := df.rows.filter (fun r => pandasEqCell (r.getD sfIdx Cell.na) v)
    (v.pyStr, sub.length, df.names.length,
      (df.names.filter (fun c =>
          !(decide (c = "source_file")) && !(decide (c = "processed_at")))).map
        (fun c => (c, (dedupFirst []
          (nonNaCells (sub.map (fun r => r.getD (colIdx df.names c) Cell.na)))).length))))
  .joinAnalysis perFile (df.names.filter keywordIdLike) perFile.length df.rows.length

/-- Lines 209-418: the `/command` endpoint.  The command is trimmed and
lowercased; an empty preview is an error; then the pattern grammar is
tried in a fixed order — row slice, plot, heatmap, the substring-triggered
metadata commands — with an unknown-command error as fallback. -/
def run_command (cmd0 : String) (df : Table) : CmdOut :=
  let command := strLower (trimStr cmd0)
  if df.rows.isEmpty then .error "No data available to process the command."
  else
    match matchRowSlice command with
    | some n => .rows (df.rows.take n)
    | none =>
    match matchPlot command with
    | some nc =>
      let colLower := strLower (trimStr nc.2)
      match lookupCol df.names colLower with
      | some col => .plot "bar" ("Top " ++ toString nc.1 ++ " " ++ col)
      | none => .error ("Column " ++ sq ++ colLower ++ sq ++ " not found. Available columns: "
          ++ pyStrList (mappingKeys df.names))
    | none =>
    match matchHeatmap command with
    | some cc =>
      let c1l := strLower (trimStr cc.1)
      let c2l := strLower (trimStr cc.2)
      match lookupCol df.names c1l, lookupCol df.names c2l with
      | some c1, some c2 => .plot "heatmap" ("Heatmap: " ++ c1 ++ " vs " ++ c2)
      | o1, o2 =>
        let missing := (if o1.isNone then [c1l] else []) ++ (if o2.isNone then [c2l] else [])
        .error ("Columns " ++ pyStrList missing ++ " not found. Available columns: "
          ++ pyStrList (mappingKeys df.names))
    | none =>
    if strHasSub command "columns" then .colsSummary df.names df.rows.length df.names.length
    else if strHasSub command "shape" || strHasSub command "size" then
      .colsSummary df.names df.rows.length df.names.length
    else if strHasSub command "files summary" || strHasSub command "file summary" then
      (if decide ("source_file" ∈ df.names) then filesSummaryOut df
       else .error "No file source information available")
    else if strHasSub command "join info" || strHasSub command "join details" then
      .joinMessage "Join information is available in the upload response"
    else if strHasSub command "analyze joins" || strHasSub command "join analysis" then
      (if decide ("source_file" ∈ df.names) then analyzeJoinsOut df
       else .error "No file source information available")
    else .error ("Unknown command: " ++ sq ++ command ++ sq ++ ". Try: "
      ++ sq ++ "show 5 rows" ++ sq ++ ", " ++ sq ++ "plot top 10 ColumnName" ++ sq ++ ", "
      ++ sq ++ "heatmap Col1 Col2" ++ sq ++ ", " ++ sq ++ "show files summary" ++ sq ++ ", "
      ++ sq ++ "join info" ++ sq ++ ", or " ++ sq ++ "analyze joins" ++ sq)

/-! ### The upload endpoint (lines 50-202) -/

/-- One uploaded file as the upload loop sees it: its filename, its
content size in bytes (`len(content)`), and the outcome of the external
TableReader (lines 85-93) — either a parsed raw table or the message of
the exception the read raised. -/
structure UFile where
  filename : String
  size : Nat
  parsed : Except String Table
deriving Repr

/-- Lines 76-148, the per-file body of the upload loop: empty content is
an error (line 79); a read exception is recorded as `filename: message`
by the surrounding `except` (line 147); an empty parsed frame is an error
(line 97, pandas `df.empty` holds when either axis has length zero); a
table with zero rows after cleaning is an error (line 122); otherwise the
cleaned table is tagged with its source file and kept. -/
def processFile (f : UFile) : Except String Table :=
  if f.size = 0 then .error (f.filename ++ " is empty")
  else
    match f.parsed with
    | .error e => .error (f.filename ++ ": " ++ e)
    | .ok df =>
      if df.rows.isEmpty || df.names.isEmpty then .error (f.filename ++ " has no data")
      else
        if (cleanTable df).rows.length = 0 then
          .error (f.filename ++ ": All rows removed after cleaning")
        else .ok (addSourceCol (cleanTable df) f.filename)

/-- Lines 70-148: the upload loop accumulating the kept dataframes, their
file names and the per-file error messages; a failing file is recorded and
skipped (`continue`), never aborting the loop. -/
def uploadLoop : List UFile → List Table × List String × List String →
    List Table × List String × List String
  | [], acc => acc
  | f :: fs, (dfs, fnames, errs) =>
    match processFile f with
    | .error e => uploadLoop fs (dfs, fnames, errs ++ [e])
    | .ok df => uploadLoop fs (dfs ++ [df], fnames ++ [f.filename], errs)

/-- The successfully processed (cleaned and tagged) tables of a batch. -/
def goodTables (files : List UFile) : List Table :=
  files.filterMap (fun f => (processFile f).toOption)

/-- The filenames of the successfully processed files of a batch. -/
def goodNames (files : List UFile) : List String :=
  files.filterMap (fun f => (processFile f).toOption.map (fun _ => f.filename))

/-- The per-file error messages of a batch. -/
def batchErrors (files : List UFile) : List String :=
  files.filterMap (fun f => match processFile f with | .error e => some e | .ok _ => none)

/-- Line 168: the combined table of an upload batch. -/
def uploadCombined (files : List UFile) : Table :=
  smart_join_dataframes (uploadLoop files ([], [], [])).1 (uploadLoop files ([], [], [])).2.1

/-- Line 169: `combined_df["processed_at"] = datetime.now().isoformat()` —
the timestamp is an input of the model. -/
def addProcessedAt (t : Table) (ts : String) : Table :=
  { names := t.names ++ ["processed_at"],
    dtypes := t.dtypes ++ [true],
    rows := t.rows.map (fun r => r ++ [.str ts]) }

/-- `df.drop(columns=[c])`: remove every column labelled `c`. -/
def dropColumn (t : Table) (c : String) : Table :=
  { names := t.names.filter (fun n => !(decide (n = c))),
    dtypes := ((t.names.zip t.dtypes).filter (fun p => !(decide (p.1 = c)))).map Prod.snd,
    rows := t.rows.map (fun r =>
      ((t.names.zip r).filter (fun p => !(decide (p.1 = c)))).map Prod.snd) }

/-- Lines 181-186: the preview table serialized back to the client when
the combined table is non-empty — `source_file` dropped if present, then
the first 10 rows.  The record round trip through
`to_dict(orient="records")` and `pd.DataFrame(request.preview)` is
modelled as the identity on this table (record key order is column
order). -/
def uploadPreview (files : List UFile) (ts : String) : Table :=
  let withTs := addProcessedAt (uploadCombined files) ts
  let dropped := if decide ("source_file" ∈ withTs.names)
    then dropColumn withTs "source_file" else withTs
  { dropped with rows := dropped.rows.take 10 }

/-- An HTTP-level rejection (`HTTPException`). -/
structure HttpError where
  status : Nat
  detail : String
deriving DecidableEq, Repr

/-- The JSON body of a successful `/upload` response (the fields the
claims read). -/
structure UploadResponse where
  totalFilesReceived : Nat
  filesProcessed : Nat
  filesWithErrors : Nat
  errors : List String
  previewRows : List (List Cell)
  previewCols : List String
deriving Repr

/-- Lines 50-202: the `/upload` endpoint.  Request-level validation runs
before the per-file loop: no files, more than 10 files, or a total
content size above 50 MB each reject the whole request with a 400 before
any file is cleaned or joined. -/
def upload_files (files : List UFile) (ts : String) : Except HttpError UploadResponse :=
  if files.isEmpty then .error ⟨400, "No files uploaded"⟩
  else if files.length > 10 then .error ⟨400, "Maximum 10 files allowed"⟩
  else if (files.map UFile.size).sum > 50 * 1024 * 1024 then
    .error ⟨400, "Total file size exceeds 50MB limit"⟩
  else
    .ok { totalFilesReceived := files.length,
          filesProcessed := (uploadLoop files ([], [], [])).1.length,
          filesWithErrors := (uploadLoop files ([], [], [])).2.2.length,
          errors := (uploadLoop files ([], [], [])).2.2,
          previewRows := (uploadPreview files ts).rows,
          previewCols := (uploadPreview files ts).names }

/-! ### The regression endpoint (lines 479-501) -/

/-- The rows of the table that are complete on the given columns
(`df.dropna(subset=features + [target])`). -/
def completeRows (df : Table) (cols : List String) : List (List Cell) :=
  df.rows.filter (fun r => cols.all (fun c => !(Cell.isNa (r.getD (colIdx df.names c) Cell.na))))

/-- What the endpoint hands to the fitted model: the feature matrix and
target vector built from the complete rows. -/
structure RegOut where
  featureRows : List (List Cell)
  targetVals : List Cell
deriving DecidableEq, Repr

/-- Modelled from the spec: the external RegressionEngine collaborator
(scikit-learn `LinearRegression.fit` and the metric calls, declared out of
scope by the spec).  Only its failure condition is modelled — a
degenerate input with zero usable rows raises, per the spec's
"singular/degenerate inputs (e.g., zero usable rows) are a reported
error"; on success the fitted data is returned as the result payload. -/
def lrFit (x : List (List Cell)) (y : List Cell) : Except String RegOut :=
  if y.isEmpty then .error "Found array with 0 samples while fitting the model"
  else .ok ⟨x, y⟩

/-- Lines 479-501: the `/regression` endpoint.  An `Except.error` models
an exception escaping the handler: the endpoint body contains no
`try`/`except`, so a missing column (`KeyError` from `dropna(subset=...)`
or the column selection) or a raise from the fit propagates out of the
endpoint unhandled and surfaces as the framework's generic 500, not as a
structured result. -/
def regression (df : Table) (target : String) (features : List String) :
    Except String RegOut :=
  if !((features ++ [target]).all (fun c => decide (c ∈ df.names))) then
    .error "KeyError"
  else
    lrFit
      ((completeRows df (features ++ [target])).map
        (fun r => features.map (fun c => r.getD (colIdx df.names c) Cell.na)))
      ((completeRows df (features ++ [target])).map
        (fun r => r.getD (colIdx df.names target) Cell.na))

/-! ### Claim C1: prioritization of identifier-like columns in the ranking -/

/-- Every element satisfying the predicate comes before every element not
satisfying it: after the satisfying prefix is dropped, no satisfying
element remains. -/
def frontLoaded {α : Type} (p : α → Bool) (l : List α) : Bool :=
  (l.dropWhile p).all (fun c => !(p c))

/-- The detector's candidate list, spelled without the local bindings. -/
theorem detect_join_keys_def (dfs : List Table) :
    detect_join_keys dfs =
      ((allColumns dfs).filter idLikeCode
        ++ (allColumns dfs).filter (fun c => !(idLikeCode c))).filterMap
        (fun c => if (presentIn dfs c).length > 1
          then some (c, presentIn dfs c) else none) := rfl

/-- If the first block satisfies the predicate and the second does not,
the concatenation is front-loaded. -/
theorem frontLoaded_append {α : Type} (p : α → Bool) (l1 l2 : List α)
    (h1 : ∀ c ∈ l1, p c = true) (h2 : ∀ c ∈ l2, p c = false) :
    frontLoaded p (l1 ++ l2) = true := by
  induction l1 with
  | nil =>
    unfold frontLoaded
    cases l2 with
    | nil => rfl
    | cons c l2t =>
      simp only [List.nil_append, List.dropWhile_cons]
      rw [h2 c (List.mem_cons_self c l2t), if_neg (by simp)]
      simp only [List.all_eq_true]
      intro x hx
      rw [h2 x hx]
      rfl
  | cons a l1t ih =>
    unfold frontLoaded
    simp only [List.cons_append, List.dropWhile_cons]
    rw [h1 a (List.mem_cons_self a l1t), if_pos rfl]
    exact ih (fun c hc => h1 c (List.mem_cons_of_mem a hc))

/-- An entry of the candidate list carries its own column name and its
presence list, and that column is shared by more than one table. -/
theorem detect_join_keys_shape (dfs : List Table) (x : String × List Nat)
    (hx : x ∈ detect_join_keys dfs) :
    x.2 = presentIn dfs x.1 ∧ 1 < x.2.length := by
  rw [detect_join_keys_def, List.mem_filterMap] at hx
  obtain ⟨a, _, hfa⟩ := hx
  by_cases h : (presentIn dfs a).length > 1
  · rw [if_pos h] at hfa
    cases hfa
    exact ⟨rfl, h⟩
  · rw [if_neg h] at hfa
    cases hfa

/-- Claim C1, falsified on the code: two tables sharing the columns
`name` and `code` (neither containing the substring `id`). -/
def c1Tables : List Table :=
  [⟨["name", "code"], [false, false], []⟩, ⟨["name", "code"], [false, false], []⟩]

/-- Claim C1 is false as stated: `code` is identifier-like in the claim's
sense (it contains `code`) and `name` is not, yet the detector ranks
`name` before `code`, because line 427 prioritizes only columns containing
`id`.  (The Python `set` iteration order is modelled as first-encounter
order; the code imposes no priority at all between these two columns.) -/
theorem c1_counterexample :
    keywordIdLike "code" = true ∧ keywordIdLike "name" = false ∧
    (detect_join_keys c1Tables).map Prod.fst = ["name", "code"] ∧
    frontLoaded keywordIdLike ((detect_join_keys c1Tables).map Prod.fst) = false := by
  decide

/-- Claim C1 (amended): when ranking shared columns to choose a join key,
every column whose lowercase name contains the substring `id` is
considered before every shared column whose name does not contain `id`,
for every input list of cleaned tables. -/
theorem c1_theorem (dfs : List Table) :
    frontLoaded idLikeCode ((detect_join_keys dfs).map Prod.fst) = true := by
  rw [detect_join_keys_def, List.filterMap_append, List.map_append]
  apply frontLoaded_append
  · intro c hc
    rw [List.mem_map] at hc
    obtain ⟨x, hx, hfst⟩ := hc
    rw [List.mem_filterMap] at hx
    obtain ⟨a, ha, hfa⟩ := hx
    have hax : a = x.1 := by
      by_cases h : (presentIn dfs a).length > 1
      · rw [if_pos h] at hfa; cases hfa; rfl
      · rw [if_neg h] at hfa; cases hfa
    rw [← hfst, ← hax]
    exact List.of_mem_filter ha
  · intro c hc
    rw [List.mem_map] at hc
    obtain ⟨x, hx, hfst⟩ := hc
    rw [List.mem_filterMap] at hx
    obtain ⟨a, ha, hfa⟩ := hx
    have hax : a = x.1 := by
      by_cases h : (presentIn dfs a).length > 1
      · rw [if_pos h] at hfa; cases hfa; rfl
      · rw [if_neg h] at hfa; cases hfa
    have := List.of_mem_filter ha
    rw [← hfst, ← hax]
    simpa using this

/-! ### Claim C3: choice of the best join key -/

/-- The largest presence count among the candidates. -/
def maxCount (l : List (String × List Nat)) : Nat :=
  (l.map (fun p => p.2.length)).foldr max 0

/-- Every candidate's count is bounded by the maximum. -/
theorem le_maxCount (l : List (String × List Nat)) (p : String × List Nat) (hp : p ∈ l) :
    p.2.length ≤ maxCount l := by
  induction l with
  | nil => cases hp
  | cons q qt ih =>
    rcases List.mem_cons.mp hp with h | h
    · subst h
      exact Nat.le_max_left _ _
    · exact le_trans (ih h) (Nat.le_max_right _ _)

/-- The loop leaves its accumulator unchanged when no candidate beats the
running maximum. -/
theorem bestLoop_noimprove (b : Option String) (m : Nat) (ps : List (String × List Nat))
    (h : ∀ p ∈ ps, p.2.length ≤ m) : bestLoop (b, m) ps = (b, m) := by
  induction ps with
  | nil => rfl
  | cons p pt ih =>
    show (if p.2.length > m then bestLoop (some p.1, p.2.length) pt
      else bestLoop (b, m) pt) = (b, m)
    rw [if_neg (Nat.not_lt.mpr (h p (List.mem_cons_self p pt)))]
    exact ih (fun q hq => h q (List.mem_cons_of_mem p hq))

/-- The strict-improvement loop selects the first candidate attaining the
overall maximum count, whenever some candidate beats the initial bound. -/
theorem bestLoop_first_max (ps : List (String × List Nat)) (b : Option String) (m : Nat)
    (h : m < maxCount ps) :
    (bestLoop (b, m) ps).1 =
      (ps.find? (fun p => decide (p.2.length = maxCount ps))).map Prod.fst := by
  induction ps generalizing b m with
  | nil => exact absurd h (by simp [maxCount])
  | cons p pt ih =>
    have hmax : maxCount (p :: pt) = max p.2.length (maxCount pt) := rfl
    have hstep : bestLoop (b, m) (p :: pt) =
        if p.2.length > m then bestLoop (some p.1, p.2.length) pt
        else bestLoop (b, m) pt := rfl
    by_cases hp : p.2.length > m
    · rw [hstep, if_pos hp]
      by_cases hgt : p.2.length < maxCount pt
      · have h1 : maxCount (p :: pt) = maxCount pt := by
          rw [hmax]; exact Nat.max_eq_right (le_of_lt hgt)
        rw [h1, List.find?_cons_of_neg _ (by simp; omega)]
        exact ih _ _ hgt
      · have hle : maxCount pt ≤ p.2.length := Nat.not_lt.mp hgt
        have h1 : maxCount (p :: pt) = p.2.length := by
          rw [hmax]; exact Nat.max_eq_left hle
        rw [h1, List.find?_cons_of_pos _ (by simp)]
        rw [bestLoop_noimprove (some p.1) p.2.length pt (fun q hq => le_trans (le_maxCount pt q hq) hle)]
        rfl
    · rw [hstep, if_neg hp]
      have hplem : p.2.length ≤ m := Nat.not_lt.mp hp
      have h2 : m < maxCount pt := by
        rcases lt_max_iff.mp (hmax ▸ h) with h3 | h3
        · omega
        · exact h3
      have h1 : maxCount (p :: pt) = maxCount pt := by
        rw [hmax]; exact Nat.max_eq_right (by omega)
      rw [h1, List.find?_cons_of_neg _ (by simp; omega)]
      exact ih _ _ h2

/-- Claim C3, falsified on the code: two tables sharing `name` and `uid`
(in that encounter order), both columns present in both tables. -/
def c3Tables : List Table :=
  [⟨["name", "uid"], [false, false], []⟩, ⟨["name", "uid"], [false, false], []⟩]

/-- Follows the claim's words: scan the shared columns in input-encounter
order and pick the one present in the most tables, ties going to the
first encountered. -/
def specC3Key (dfs : List Table) : Option String :=
  let shared := (allColumns dfs).filter (fun c => decide (1 < (presentIn dfs c).length))
  let m := (shared.map (fun c => (presentIn dfs c).length)).foldr max 0
  shared.find? (fun c => decide ((presentIn dfs c).length = m))

/-- Claim C3 is false as stated: `name` and `uid` are both present in both
tables (a tie at the maximum count) and `name` is encountered first in the
input order, yet the code chooses `uid`, because the candidate enumeration
ranks `id`-containing columns ahead of the others before the
first-strict-improvement scan. -/
theorem c3_counterexample :
    (presentIn c3Tables "uid").length = (presentIn c3Tables "name").length ∧
    allColumns c3Tables = ["name", "uid"] ∧
    specC3Key c3Tables = some "name" ∧
    best_join_key (detect_join_keys c3Tables) = some "uid" := by
  decide

/-- Claim C3 (amended): the join key chosen is the qualifying shared
column present in the largest number of tables, with ties broken by the
detector's candidate order — columns containing `id` first, then
first-encounter order — deterministically (the choice is the first
candidate in that order attaining the maximal count). -/
theorem c3_theorem (dfs : List Table) (h : detect_join_keys dfs ≠ []) :
    best_join_key (detect_join_keys dfs) =
      ((detect_join_keys dfs).find?
        (fun p => decide (p.2.length = maxCount (detect_join_keys dfs)))).map Prod.fst := by
  unfold best_join_key
  apply bestLoop_first_max
  obtain ⟨p, hp⟩ := List.exists_mem_of_ne_nil _ h
  have h2 : 1 < p.2.length := (detect_join_keys_shape dfs p hp).2
  exact lt_of_lt_of_le (by omega) (le_maxCount _ p hp)

/-- Witness for the amended claim C3 at a concrete input: the candidate
list of `c3Tables` is nonempty, and the conclusion evaluates. -/
theorem c3_witness :
    best_join_key (detect_join_keys c3Tables) =
      ((detect_join_keys c3Tables).find?
        (fun p => decide (p.2.length = maxCount (detect_join_keys c3Tables)))).map Prod.fst := by
  rw [c3_theorem c3Tables (by decide)]

/-! ### Claim C6: idempotence of cleaning -/

/-- Index-filtering keeps a list intact when the predicate holds on the
whole index range. -/
theorem filterIdxFrom_eq_self {α : Type} (p : Nat → Bool) (k : Nat) (xs : List α)
    (h : ∀ i, i < xs.length → p (k + i) = true) : filterIdxFrom p k xs = xs := by
  induction xs generalizing k with
  | nil => rfl
  | cons x xt ih =>
    show (if p k then x :: filterIdxFrom p (k+1) xt else filterIdxFrom p (k+1) xt) = x :: xt
    rw [if_pos (by simpa using h 0 (by simp))]
    congr 1
    apply ih
    intro i hi
    have hs := h (i+1) (by simpa using Nat.succ_lt_succ hi)
    rw [← hs]
    congr 1
    omega

/-- Index-mapping is the identity when the function is. -/
theorem mapIdxFrom_eq_self {α : Type} (f : Nat → α → α) (k : Nat) (xs : List α)
    (h : ∀ i x, f i x = x) : mapIdxFrom f k xs = xs := by
  induction xs generalizing k with
  | nil => rfl
  | cons x xt ih =>
    show f k x :: mapIdxFrom f (k+1) xt = x :: xt
    rw [h k x, ih (k+1)]

/-- Claim C6, falsified on the code: a table with no fully-empty row or
column and an already-normalized header, whose single `object` column
holds the digit-comma value `1,5`. -/
def c6Table : Table := ⟨["A"], [true], [[.str "1,5"]]⟩

/-- Claim C6 is false as stated: `c6Table` satisfies the claim's notion of
already cleaned (no fully-empty row or column, header trimmed and
whitespace-normalized), yet cleaning changes it — the numeric-coercion
step turns the string `1,5` into the number `1.5` and flips the column's
dtype. -/
theorem c6_counterexample :
    (∀ r ∈ c6Table.rows, allNaRow r = false) ∧
    (∀ j, j < c6Table.names.length → colKeep c6Table.rows j = true) ∧
    c6Table.names.map normalizeHeader = c6Table.names ∧
    cleanTable c6Table ≠ c6Table := by
  decide

/-- Claim C6 (amended): cleaning is idempotent on tables that are already
cleaned in the claim's sense — no fully-empty row or column, headers
already trimmed and whitespace-normalized — provided additionally that no
column among the first 10 is selected for numeric coercion (it is already
numeric-dtype, has no values, or fails the digit-sample test). -/
theorem c6_theorem (t : Table) (hrect : t.Rect)
    (h1 : ∀ r ∈ t.rows, allNaRow r = false)
    (h2 : ∀ j, j < t.names.length → colKeep t.rows j = true)
    (h3 : t.names.map normalizeHeader = t.names)
    (h4 : ∀ j, j < 10 → coerceCond t j = false) :
    cleanTable t = t := by
  obtain ⟨hd, hr⟩ := hrect
  have hrows : dropEmptyRows t = t := by
    unfold dropEmptyRows
    have hf : t.rows.filter (fun r => !(allNaRow r)) = t.rows := by
      apply List.filter_eq_self.mpr
      intro r hrm
      rw [h1 r hrm]
      rfl
    rw [hf]
  have hcols : dropEmptyCols t = t := by
    unfold dropEmptyCols
    have hnames : filterIdxFrom (colKeep t.rows) 0 t.names = t.names :=
      filterIdxFrom_eq_self _ 0 _ (fun i hi => by simpa using h2 i hi)
    have hdty : filterIdxFrom (colKeep t.rows) 0 t.dtypes = t.dtypes :=
      filterIdxFrom_eq_self _ 0 _ (fun i hi => by simpa using h2 i (by omega))
    have hrws : t.rows.map (filterIdxFrom (colKeep t.rows) 0) = t.rows := by
      rw [show t.rows.map (filterIdxFrom (colKeep t.rows) 0)
            = t.rows.map (fun r => filterIdxFrom (colKeep t.rows) 0 r) from rfl]
      rw [List.map_congr_left (fun r hrm =>
        filterIdxFrom_eq_self _ 0 r (fun i hi => by
          simpa using h2 i (by rw [← hr r hrm]; omega)))]
      exact List.map_id t.rows
    rw [hnames, hdty, hrws]
  have hren : renameHeaders t = t := by
    unfold renameHeaders
    rw [h3]
  have hdecf : ∀ j, (decide (j < 10) && coerceCond t j) = false := by
    intro j
    by_cases hj : j < 10
    · rw [h4 j hj]
      simp
    · simp [hj]
  have hco : coerceNumeric t = t := by
    unfold coerceNumeric
    have hdty : mapIdxFrom
        (fun j d => if decide (j < 10) && coerceCond t j then false else d) 0 t.dtypes
          = t.dtypes :=
      mapIdxFrom_eq_self _ 0 _ (fun i x => by rw [hdecf i]; rfl)
    have hrws : t.rows.map (fun r => mapIdxFrom
        (fun j v => if decide (j < 10) && coerceCond t j then convertCell v else v) 0 r)
          = t.rows := by
      rw [List.map_congr_left (fun r _ =>
        mapIdxFrom_eq_self _ 0 r (fun i x => by rw [hdecf i]; rfl))]
      exact List.map_id t.rows
    rw [hdty, hrws]
  rw [cleanTable, cleanMid, hrows, hcols, hren, hco]

/-- Witness table for the amended claim C6: one numeric-dtype column, so
no coercion applies. -/
def c6wTable : Table := ⟨["a"], [false], [[.num ⟨1, 1⟩]]⟩

/-- Witness for the amended claim C6 at a concrete input. -/
theorem c6_witness : cleanTable c6wTable = c6wTable :=
  c6_theorem c6wTable (by decide) (by decide) (by decide) (by decide) (by decide)

/-! ### Claim C7: bounded numeric coercion -/

/-- Index-mapping preserves length. -/
theorem mapIdxFrom_length {α : Type} (f : Nat → α → α) (k : Nat) (xs : List α) :
    (mapIdxFrom f k xs).length = xs.length := by
  induction xs generalizing k with
  | nil => rfl
  | cons x xt ih =>
    show (f k x :: mapIdxFrom f (k+1) xt).length = (x :: xt).length
    simp [ih]

/-- Reading an index-mapped list: in range the function is applied at the
shifted index, out of range the default survives. -/
theorem mapIdxFrom_getD {α : Type} (f : Nat → α → α) (k : Nat) (xs : List α) (i : Nat) (d : α) :
    (mapIdxFrom f k xs).getD i d = if i < xs.length then f (k + i) (xs.getD i d) else d := by
  induction xs generalizing k i with
  | nil => simp [mapIdxFrom]
  | cons x xt ih =>
    cases i with
    | zero =>
      show (f k x :: mapIdxFrom f (k+1) xt).getD 0 d =
        if 0 < (x :: xt).length then f (k + 0) ((x :: xt).getD 0 d) else d
      rw [if_pos (by simp)]
      simp
    | succ n =>
      show (f k x :: mapIdxFrom f (k+1) xt).getD (n+1) d = _
      simp only [List.getD_cons_succ]
      rw [ih (k+1) n]
      by_cases hn : n < xt.length
      · rw [if_pos hn, if_pos (by simpa using Nat.succ_lt_succ hn)]
        congr 1
        omega
      · rw [if_neg hn, if_neg (by simp; omega)]

/-- A missing value stays missing through the per-value conversion. -/
theorem convertCell_na : convertCell Cell.na = Cell.na := by decide

/-- The value column `j` takes after the coercion stage. -/
theorem coerceNumeric_getCol (m : Table) (j : Nat) :
    getCol (coerceNumeric m) j = m.rows.map (fun r =>
      if j < r.length then
        (if decide (j < 10) && coerceCond m j then convertCell (r.getD j Cell.na)
         else r.getD j Cell.na)
      else Cell.na) := by
  unfold getCol coerceNumeric
  rw [List.map_map]
  apply List.map_congr_left
  intro r _
  show (mapIdxFrom _ 0 r).getD j Cell.na = _
  rw [mapIdxFrom_getD, Nat.zero_add]

/-- The dtype flag column `j` carries after the coercion stage. -/
theorem coerceNumeric_dtype (m : Table) (j : Nat) :
    (coerceNumeric m).dtypes.getD j false =
      if j < m.dtypes.length then
        (if decide (j < 10) && coerceCond m j then false else m.dtypes.getD j false)
      else false := by
  show (mapIdxFrom _ 0 m.dtypes).getD j false = _
  rw [mapIdxFrom_getD, Nat.zero_add]

/-- When column `j` is not selected, the coercion stage leaves it alone. -/
theorem coerceNumeric_skip (m : Table) (j : Nat)
    (hdec : (decide (j < 10) && coerceCond m j) = false) :
    getCol (coerceNumeric m) j = getCol m j ∧
    (coerceNumeric m).dtypes.getD j false = m.dtypes.getD j false := by
  constructor
  · rw [coerceNumeric_getCol]
    apply List.map_congr_left
    intro r _
    rw [hdec]
    by_cases hlen : j < r.length
    · rw [if_pos hlen, if_neg (by simp)]
    · rw [if_neg hlen, List.getD_eq_default _ _ (Nat.not_lt.mp hlen)]
  · rw [coerceNumeric_dtype]
    by_cases hlen : j < m.dtypes.length
    · rw [if_pos hlen, hdec, if_neg (by simp)]
    · rw [if_neg hlen, List.getD_eq_default _ _ (Nat.not_lt.mp hlen)]

/-- Claim C7: numeric coercion during cleaning is applied only to the
first 10 columns; a column is coerced only when it is `object`-dtype, has
values, and every sampled value (up to 100 non-missing ones) passes the
comma-to-point digit test; and when coercion happens every value runs
through the per-value converter, where an individually unparseable value
becomes missing while parseable values become numbers — per-value, not
per-column, tolerance. -/
theorem c7_theorem (t : Table) (j : Nat) :
    ((cleanTable t).names = (cleanMid t).names) ∧
    (10 ≤ j →
      getCol (cleanTable t) j = getCol (cleanMid t) j ∧
      (cleanTable t).dtypes.getD j false = (cleanMid t).dtypes.getD j false) ∧
    (j < 10 → coerceCond (cleanMid t) j = false →
      getCol (cleanTable t) j = getCol (cleanMid t) j ∧
      (cleanTable t).dtypes.getD j false = (cleanMid t).dtypes.getD j false) ∧
    (j < 10 → coerceCond (cleanMid t) j = true →
      getCol (cleanTable t) j = (getCol (cleanMid t) j).map convertCell ∧
      ((cleanMid t).dtypes.length ≤ j ∨ (cleanTable t).dtypes.getD j false = false)) ∧
    (∀ c : Cell, parseDec (commaToDot c.pyStr) = none → convertCell c = Cell.na) ∧
    (∀ c : Cell, ∀ q, parseDec (commaToDot c.pyStr) = some q → convertCell c = Cell.num q) := by
  refine ⟨rfl, ?_, ?_, ?_, ?_, ?_⟩
  · intro hj
    exact coerceNumeric_skip (cleanMid t) j (by simp [Nat.not_lt.mpr hj])
  · intro _ hcond
    exact coerceNumeric_skip (cleanMid t) j (by simp [hcond])
  · intro hj hcond
    have hdec : (decide (j < 10) && coerceCond (cleanMid t) j) = true := by
      simp [hj, hcond]
    constructor
    · show getCol (coerceNumeric (cleanMid t)) j = _
      rw [coerceNumeric_getCol]
      show _ = ((cleanMid t).rows.map (fun r => r.getD j Cell.na)).map convertCell
      rw [List.map_map]
      apply List.map_congr_left
      intro r _
      rw [hdec]
      by_cases hlen : j < r.length
      · rw [if_pos hlen, if_pos rfl]
        rfl
      · rw [if_neg hlen]
        show Cell.na = convertCell (r.getD j Cell.na)
        rw [List.getD_eq_default _ _ (Nat.not_lt.mp hlen), convertCell_na]
    · by_cases hlen : j < (cleanMid t).dtypes.length
      · right
        rw [show (cleanTable t).dtypes = (coerceNumeric (cleanMid t)).dtypes from rfl,
          coerceNumeric_dtype, if_pos hlen, hdec, if_pos rfl]
      · exact Or.inl (Nat.not_lt.mp hlen)
  · intro c hp
    unfold convertCell
    rw [hp]
  · intro c q hp
    unfold convertCell
    rw [hp]

/-- Witness table for claim C7: one `object` column of digit strings. -/
def c7wTable : Table := ⟨["A"], [true], [[.str "7"]]⟩

/-- Witness for claim C7 at a concrete input: the single column is
selected for coercion and is mapped through the per-value converter. -/
theorem c7_witness :
    coerceCond (cleanMid c7wTable) 0 = true ∧
    getCol (cleanTable c7wTable) 0 = (getCol (cleanMid c7wTable) 0).map convertCell :=
  ⟨by decide, ((c7_theorem c7wTable 0).2.2.2.1 (by decide) (by decide)).1⟩

/-! ### Claim C8: the row-slice command -/

/-- Claim C8: against a non-empty preview, a command the row-slice pattern
matches with count `n` returns the first `min n rowcount` rows and never
an error — in particular, asking for more rows than exist returns all
available rows. -/
theorem c8_theorem (cmd : String) (df : Table) (n : Nat)
    (hne : df.rows.isEmpty = false)
    (hm : matchRowSlice (strLower (trimStr cmd)) = some n) :
    run_command cmd df = CmdOut.rows (df.rows.take n) ∧
    (df.rows.take n).length = min n df.rows.length := by
  constructor
  · unfold run_command
    rw [hne, if_neg (by simp), hm]
  · exact List.length_take n df.rows

/-- Witness preview for claim C8: a five-row table. -/
def c8Table : Table :=
  ⟨["a"], [false],
    [[.num ⟨1, 1⟩], [.num ⟨2, 1⟩], [.num ⟨3, 1⟩], [.num ⟨4, 1⟩], [.num ⟨5, 1⟩]]⟩

/-- Witness for claim C8 at a concrete input: `show 1000 rows` against the
five-row table returns exactly the 5 available rows. -/
theorem c8_witness :
    run_command "show 1000 rows" c8Table = CmdOut.rows (c8Table.rows.take 1000) ∧
    (c8Table.rows.take 1000).length = min 1000 c8Table.rows.length ∧
    (c8Table.rows.take 1000).length = 5 :=
  ⟨(c8_theorem ("show 1000 rows") c8Table 1000 (by decide) (by decide)).1,
   (c8_theorem ("show 1000 rows") c8Table 1000 (by decide) (by decide)).2,
   by decide⟩

/-! ### Claim C10: request-level upload validation -/

/-- Claim C10: a batch with more than 10 files, or whose total content
size exceeds 50 MB, is rejected with a structured 400 client error —
the endpoint returns the rejection instead of any upload response, so no
file is cleaned or joined and no partial result exists. -/
theorem c10_theorem (files : List UFile) (ts : String)
    (h : files.length > 10 ∨ (files.map UFile.size).sum > 50 * 1024 * 1024) :
    ∃ e : HttpError, upload_files files ts = Except.error e ∧ e.status = 400 ∧
      (e.detail = "Maximum 10 files allowed" ∨
       e.detail = "Total file size exceeds 50MB limit") := by
  have hne : files.isEmpty = false := by
    cases files with
    | nil => rcases h with h | h <;> simp at h
    | cons f fs => rfl
  by_cases hlen : files.length > 10
  · refine ⟨⟨400, "Maximum 10 files allowed"⟩, ?_, rfl, Or.inl rfl⟩
    unfold upload_files
    rw [hne, if_neg (by simp), if_pos hlen]
  · have hsz := h.resolve_left hlen
    refine ⟨⟨400, "Total file size exceeds 50MB limit"⟩, ?_, rfl, Or.inr rfl⟩
    unfold upload_files
    rw [hne, if_neg (by simp), if_neg hlen, if_pos hsz]

/-- Witness file for claim C10. -/
def c10File : UFile := ⟨"a.csv", 5, .ok ⟨["a"], [false], [[.num ⟨1, 1⟩]]⟩⟩

/-- Witness for claim C10 at a concrete input: eleven files are rejected
with a 400. -/
theorem c10_witness :
    ∃ e : HttpError, upload_files (List.replicate 11 c10File) "t" = Except.error e ∧
      e.status = 400 ∧
      (e.detail = "Maximum 10 files allowed" ∨
       e.detail = "Total file size exceeds 50MB limit") :=
  c10_theorem (List.replicate 11 c10File) "t" (Or.inl (by decide))

/-! ### Claim C5: the regression endpoint -/

/-- Claim C5, falsified on the code: a table whose single row has a
missing target value, so no usable row remains after the exclusion. -/
def c5Table : Table := ⟨["x", "y"], [false, false], [[.num ⟨1, 1⟩, .na]]⟩

/-- Claim C5 is false in its error-handling half: with zero usable rows
after the missing-value exclusion, the endpoint does not produce a
reported, structured error — the fit's exception escapes the handler
unhandled (the endpoint body has no `try`/`except`; `Except.error` in the
model is an exception propagating out of the endpoint, surfaced by the
framework as a generic 500). -/
theorem c5_counterexample :
    completeRows c5Table ["x", "y"] = [] ∧
    regression c5Table "y" ["x"] =
      Except.error "Found array with 0 samples while fitting the model" :=
  ⟨by decide, by rfl⟩

/-- Claim C5 (amended): rows with a missing value in any feature column or
in the target column are excluded before fitting — the fitted target and
feature data come exactly from the complete rows, and every fitted target
value is non-missing — but a degenerate input (zero usable rows after the
exclusion) raises an exception that escapes the endpoint unhandled,
rather than producing a reported, structured error. -/
theorem c5_theorem (df : Table) (target : String) (features : List String)
    (hcols : ((features ++ [target]).all (fun c => decide (c ∈ df.names))) = true) :
    (completeRows df (features ++ [target]) = [] →
      regression df target features =
        Except.error "Found array with 0 samples while fitting the model") ∧
    (∀ out : RegOut, regression df target features = Except.ok out →
      out.targetVals = (completeRows df (features ++ [target])).map
        (fun r => r.getD (colIdx df.names target) Cell.na) ∧
      out.featureRows = (completeRows df (features ++ [target])).map
        (fun r => features.map (fun c => r.getD (colIdx df.names c) Cell.na)) ∧
      out.targetVals.all (fun c => !(c.isNa)) = true) := by
  have hred : regression df target features =
      lrFit
        ((completeRows df (features ++ [target])).map
          (fun r => features.map (fun c => r.getD (colIdx df.names c) Cell.na)))
        ((completeRows df (features ++ [target])).map
          (fun r => r.getD (colIdx df.names target) Cell.na)) := by
    unfold regression
    rw [hcols]
    rfl
  constructor
  · intro hempty
    rw [hred, hempty]
    rfl
  · intro out hout
    rw [hred] at hout
    unfold lrFit at hout
    by_cases hy : ((completeRows df (features ++ [target])).map
        (fun r => r.getD (colIdx df.names target) Cell.na)).isEmpty
    · rw [if_pos hy] at hout
      cases hout
    · rw [if_neg hy] at hout
      injection hout with hout2
      subst hout2
      refine ⟨rfl, rfl, ?_⟩
      rw [List.all_eq_true]
      intro c hc
      rw [List.mem_map] at hc
      obtain ⟨r, hr, hcv⟩ := hc
      have hcm := List.mem_filter.mp hr
      have hall := hcm.2
      rw [List.all_eq_true] at hall
      have htin : target ∈ features ++ [target] :=
        List.mem_append_right _ (List.mem_singleton_self target)
      have h2 := hall target htin
      rw [← hcv]
      simpa using h2

/-- Witness table for the amended claim C5: every row misses a feature or
the target. -/
def c5wTable : Table :=
  ⟨["x", "y"], [false, false], [[.na, .num ⟨2, 1⟩], [.num ⟨1, 1⟩, .na]]⟩

/-- Witness for the amended claim C5 at a concrete input: zero usable rows
make the endpoint raise, not answer. -/
theorem c5_witness :
    regression c5wTable "y" ["x"] =
      Except.error "Found array with 0 samples while fitting the model" :=
  (c5_theorem c5wTable "y" ["x"] (by decide)).1 (by decide)

/-! ### Claim C4: per-file failure isolation in the upload batch -/

/-- The upload loop is the per-file map of `processFile`: every file's
outcome is appended independently and no failure aborts the iteration. -/
theorem uploadLoop_eq (files : List UFile) (dfs : List Table) (fnames errs : List String) :
    uploadLoop files (dfs, fnames, errs) =
      (dfs ++ goodTables files, fnames ++ goodNames files, errs ++ batchErrors files) := by
  induction files generalizing dfs fnames errs with
  | nil =>
    show (dfs, fnames, errs) = _
    simp [goodTables, goodNames, batchErrors]
  | cons f fs ih =>
    show (match processFile f with
      | .error e => uploadLoop fs (dfs, fnames, errs ++ [e])
      | .ok df => uploadLoop fs (dfs ++ [df], fnames ++ [f.filename], errs)) = _
    cases hf : processFile f with
    | error e =>
      show uploadLoop fs (dfs, fnames, errs ++ [e]) = _
      rw [ih]
      unfold goodTables goodNames batchErrors
      simp [List.filterMap_cons, hf, Except.toOption]
    | ok df =>
      show uploadLoop fs (dfs ++ [df], fnames ++ [f.filename], errs) = _
      rw [ih]
      unfold goodTables goodNames batchErrors
      simp [List.filterMap_cons, hf, Except.toOption]

/-- Claim C4: a file whose table has zero rows after cleaning is recorded
as the per-file error `filename: All rows removed after cleaning` and is
excluded from the kept tables; the batch loop is the independent per-file
map, so every other file continues to be processed; and the combined
table is still built, from exactly the successfully processed tables. -/
theorem c4_theorem (files : List UFile) (f : UFile) (hf : f ∈ files)
    (df : Table) (hp : f.parsed = Except.ok df) (hsz : ¬ f.size = 0)
    (hrows : df.rows.isEmpty = false) (hnames : df.names.isEmpty = false)
    (hzero : (cleanTable df).rows.length = 0) :
    processFile f = Except.error (f.filename ++ ": All rows removed after cleaning") ∧
    (f.filename ++ ": All rows removed after cleaning") ∈ batchErrors files ∧
    uploadLoop files ([], [], []) =
      (goodTables files, goodNames files, batchErrors files) ∧
    uploadCombined files =
      smart_join_dataframes (goodTables files) (goodNames files) := by
  have hpf : processFile f =
      Except.error (f.filename ++ ": All rows removed after cleaning") := by
    unfold processFile
    rw [if_neg hsz, hp]
    show (if df.rows.isEmpty || df.names.isEmpty then _ else _) = _
    rw [hrows, hnames, if_neg (by simp), if_pos hzero]
  refine ⟨hpf, ?_, ?_, ?_⟩
  · unfold batchErrors
    rw [List.mem_filterMap]
    exact ⟨f, hf, by rw [hpf]⟩
  · simpa using uploadLoop_eq files [] [] []
  · unfold uploadCombined
    rw [uploadLoop_eq files [] [] []]
    simp

/-- A file whose only row is entirely missing: cleaning empties it. -/
def c4BadFile : UFile := ⟨"bad.csv", 9, .ok ⟨["a"], [false], [[.na]]⟩⟩

/-- A file cleaning keeps. -/
def c4GoodFile : UFile := ⟨"good.csv", 9, .ok ⟨["a"], [false], [[.num ⟨1, 1⟩]]⟩⟩

/-- Witness batch for claim C4. -/
def c4Files : List UFile := [c4BadFile, c4GoodFile]

/-- Witness for claim C4 at a concrete input: the emptied file is recorded
and skipped while the batch still combines the good file. -/
theorem c4_witness :
    processFile c4BadFile =
      Except.error ("bad.csv" ++ ": All rows removed after cleaning") ∧
    ("bad.csv" ++ ": All rows removed after cleaning") ∈ batchErrors c4Files ∧
    uploadLoop c4Files ([], [], []) =
      (goodTables c4Files, goodNames c4Files, batchErrors c4Files) ∧
    uploadCombined c4Files =
      smart_join_dataframes (goodTables c4Files) (goodNames c4Files) :=
  c4_theorem c4Files c4BadFile (List.mem_cons_self c4BadFile [c4GoodFile])
    ⟨["a"], [false], [[.na]]⟩ rfl (by decide) (by decide) (by decide) (by decide)

/-! ### Claim C9: the dropped source tag and the file-oriented commands -/

/-- Dropping a column removes every occurrence of its label. -/
theorem not_mem_dropColumn (t : Table) (c : String) : c ∉ (dropColumn t c).names := by
  intro h
  unfold dropColumn at h
  have := List.mem_filter.mp h
  simp at this

/-- Routing: a non-row-slice, non-plot, non-heatmap, non-metadata command
containing `files summary`/`file summary`, against a non-empty preview
without a `source_file` column, reaches the no-file-source error. -/
theorem run_command_files_summary_route (cmd0 : String) (df : Table)
    (hne : df.rows.isEmpty = false)
    (hsf : "source_file" ∉ df.names)
    (h1 : matchRowSlice (strLower (trimStr cmd0)) = none)
    (h2 : matchPlot (strLower (trimStr cmd0)) = none)
    (h3 : matchHeatmap (strLower (trimStr cmd0)) = none)
    (h4 : strHasSub (strLower (trimStr cmd0)) "columns" = false)
    (h5 : strHasSub (strLower (trimStr cmd0)) "shape" = false)
    (h6 : strHasSub (strLower (trimStr cmd0)) "size" = false)
    (h7 : (strHasSub (strLower (trimStr cmd0)) "files summary" ||
           strHasSub (strLower (trimStr cmd0)) "file summary") = true) :
    run_command cmd0 df = CmdOut.error "No file source information available" := by
  unfold run_command
  rw [hne, if_neg (by simp), h1, h2, h3, h4, h5, h6, if_neg (by simp),
    if_neg (by simp), h7, if_pos rfl, if_neg (by simpa using hsf)]

/-- Routing: likewise for a command containing `analyze joins`/`join
analysis` that triggers none of the earlier patterns. -/
theorem run_command_analyze_joins_route (cmd0 : String) (df : Table)
    (hne : df.rows.isEmpty = false)
    (hsf : "source_file" ∉ df.names)
    (h1 : matchRowSlice (strLower (trimStr cmd0)) = none)
    (h2 : matchPlot (strLower (trimStr cmd0)) = none)
    (h3 : matchHeatmap (strLower (trimStr cmd0)) = none)
    (h4 : strHasSub (strLower (trimStr cmd0)) "columns" = false)
    (h5 : strHasSub (strLower (trimStr cmd0)) "shape" = false)
    (h6 : strHasSub (strLower (trimStr cmd0)) "size" = false)
    (h7 : strHasSub (strLower (trimStr cmd0)) "files summary" = false)
    (h8 : strHasSub (strLower (trimStr cmd0)) "file summary" = false)
    (h9 : strHasSub (strLower (trimStr cmd0)) "join info" = false)
    (h10 : strHasSub (strLower (trimStr cmd0)) "join details" = false)
    (h11 : (strHasSub (strLower (trimStr cmd0)) "analyze joins" ||
            strHasSub (strLower (trimStr cmd0)) "join analysis") = true) :
    run_command cmd0 df = CmdOut.error "No file source information available" := by
  unfold run_command
  rw [hne, if_neg (by simp), h1, h2, h3, h4, h5, h6, h7, h8, h9, h10,
    if_neg (by simp), if_neg (by simp), if_neg (by simp), if_neg (by simp),
    h11, if_pos rfl, if_neg (by simpa using hsf)]

/-- Claim C9: after a successful upload with a non-empty combined table,
the preview never carries the `source_file` column (it is dropped before
serialization), and consequently both the `files summary` and the
`analyze joins` commands against the round-tripped preview answer the
`No file source information available` error — even for multi-file
uploads whose rows were tagged during cleaning. -/
theorem c9_theorem (files : List UFile) (ts : String)
    (hne : (uploadCombined files).rows ≠ []) :
    "source_file" ∉ (uploadPreview files ts).names ∧
    run_command "files summary" (uploadPreview files ts) =
      CmdOut.error "No file source information available" ∧
    run_command "analyze joins" (uploadPreview files ts) =
      CmdOut.error "No file source information available" := by
  have hpn : (uploadPreview files ts).names =
      (if decide ("source_file" ∈ (addProcessedAt (uploadCombined files) ts).names)
       then dropColumn (addProcessedAt (uploadCombined files) ts) "source_file"
       else addProcessedAt (uploadCombined files) ts).names := rfl
  have hnames : "source_file" ∉ (uploadPreview files ts).names := by
    rw [hpn]
    by_cases hs : "source_file" ∈ (addProcessedAt (uploadCombined files) ts).names
    · rw [if_pos (by simpa using hs)]
      exact not_mem_dropColumn _ _
    · rw [if_neg (by simpa using hs)]
      exact hs
  have hpr : (uploadPreview files ts).rows =
      (if decide ("source_file" ∈ (addProcessedAt (uploadCombined files) ts).names)
       then dropColumn (addProcessedAt (uploadCombined files) ts) "source_file"
       else addProcessedAt (uploadCombined files) ts).rows.take 10 := rfl
  have hlen : (uploadPreview files ts).rows.length =
      min 10 (uploadCombined files).rows.length := by
    rw [hpr, List.length_take]
    congr 1
    by_cases hs : "source_file" ∈ (addProcessedAt (uploadCombined files) ts).names
    · rw [if_pos (by simpa using hs)]
      show ((addProcessedAt (uploadCombined files) ts).rows.map _).length = _
      rw [List.length_map]
      exact List.length_map _ _
    · rw [if_neg (by simpa using hs)]
      exact List.length_map _ _
  have hpos : 0 < (uploadCombined files).rows.length := List.length_pos.mpr hne
  have hprev : (uploadPreview files ts).rows.isEmpty = false := by
    have hnz : (uploadPreview files ts).rows ≠ [] := by
      intro hnil
      rw [hnil] at hlen
      simp at hlen
      omega
    cases hq : (uploadPreview files ts).rows with
    | nil => exact absurd hq hnz
    | cons a l => rfl
  refine ⟨hnames, ?_, ?_⟩
  · exact run_command_files_summary_route _ _ hprev hnames (by decide) (by decide)
      (by decide) (by decide) (by decide) (by decide) (by decide)
  · exact run_command_analyze_joins_route _ _ hprev hnames (by decide) (by decide)
      (by decide) (by decide) (by decide) (by decide) (by decide) (by decide)
      (by decide) (by decide) (by decide)

/-- Witness upload batch for claim C9: two one-row files joined on `id`. -/
def c9File1 : UFile := ⟨"x.csv", 7, .ok ⟨["id", "a"], [false, false], [[.num ⟨1, 1⟩, .num ⟨2, 1⟩]]⟩⟩

/-- Second file of the C9 witness batch. -/
def c9File2 : UFile := ⟨"y.csv", 7, .ok ⟨["id", "b"], [false, false], [[.num ⟨1, 1⟩, .num ⟨3, 1⟩]]⟩⟩

/-- The C9 witness batch. -/
def c9Files : List UFile := [c9File1, c9File2]

/-- Witness for claim C9 at a concrete input: the two files join to a
non-empty combined table, and both commands answer the no-file-source
error. -/
theorem c9_witness :
    (uploadCombined c9Files).rows ≠ [] ∧
    ("source_file" ∉ (uploadPreview c9Files "T").names ∧
     run_command "files summary" (uploadPreview c9Files "T") =
       CmdOut.error "No file source information available" ∧
     run_command "analyze joins" (uploadPreview c9Files "T") =
       CmdOut.error "No file source information available") :=
  ⟨by decide, c9_theorem c9Files "T" (by decide)⟩

/-! ### Claim C2: the inner-join chain -/

/-- Join character-list parts with dots. -/
def joinDots : List (List Char) → List Char
  | [] => []
  | [x] => x
  | x :: y :: rest => x ++ '.' :: joinDots (y :: rest)

/-- The filename stem in the claim's sense: the filename without its final
extension (everything before the last dot). -/
def fileStem (s : String) : String :=
  let parts := splitOnChar '.' s.toList
  if parts.length ≤ 1 then s else (joinDots parts.dropLast).asString

/-- Follows the claim's words (with the amended collision suffix): given
the chosen key, chain inner joins starting from the first table containing
it through each subsequent table containing it, suffixing collisions with
an underscore plus the joining file's before-the-first-dot name, then
append the tables that do not contain the key by row concatenation. -/
def specChainJoin (dfs : List Table) (fileNames : List String) (bk : String) : Table :=
  match presentIn dfs bk with
  | [] => emptyTable
  | i0 :: rest =>
    let joined := rest.foldl
      (fun acc i => mergeInner acc (dfs.getD i emptyTable) bk
        ("_" ++ firstDotPart (fileNames.getD i "")))
      (dfs.getD i0 emptyTable)
    if ((List.range dfs.length).filter
        (fun i => !(decide (bk ∈ (dfs.getD i emptyTable).names)))).isEmpty
    then joined
    else concatTables [joined,
      concatTables (((List.range dfs.length).filter
        (fun i => !(decide (bk ∈ (dfs.getD i emptyTable).names)))).map
          (fun i => dfs.getD i emptyTable))]

/-- A key the best-key loop returns names one of the scanned candidates
(or was already the accumulator). -/
theorem bestLoop_mem (ps : List (String × List Nat)) (b : Option String) (m : Nat) (k : String)
    (h : (bestLoop (b, m) ps).1 = some k) :
    b = some k ∨ ∃ p ∈ ps, p.1 = k := by
  induction ps generalizing b m with
  | nil => exact Or.inl h
  | cons p pt ih =>
    have hstep : bestLoop (b, m) (p :: pt) =
        if p.2.length > m then bestLoop (some p.1, p.2.length) pt
        else bestLoop (b, m) pt := rfl
    rw [hstep] at h
    by_cases hp : p.2.length > m
    · rw [if_pos hp] at h
      rcases ih _ _ h with h2 | h2
      · injection h2 with h3
        exact Or.inr ⟨p, List.mem_cons_self p pt, h3⟩
      · obtain ⟨q, hq, hqk⟩ := h2
        exact Or.inr ⟨q, List.mem_cons_of_mem p hq, hqk⟩
    · rw [if_neg hp] at h
      rcases ih _ _ h with h2 | h2
      · exact Or.inl h2
      · obtain ⟨q, hq, hqk⟩ := h2
        exact Or.inr ⟨q, List.mem_cons_of_mem p hq, hqk⟩

/-- The dict lookup of the chosen best key recovers exactly the presence
list of that key, which covers more than one table. -/
theorem filesWithKey_eq (dfs : List Table) (bk : String)
    (h : best_join_key (detect_join_keys dfs) = some bk) :
    filesWithKey dfs bk = presentIn dfs bk ∧ 1 < (presentIn dfs bk).length := by
  have hmem : ∃ p ∈ detect_join_keys dfs, p.1 = bk := by
    rcases bestLoop_mem (detect_join_keys dfs) none 0 bk h with h2 | h2
    · cases h2
    · exact h2
  obtain ⟨p, hp, hpk⟩ := hmem
  have hsome : ((detect_join_keys dfs).find? (fun q => decide (q.1 = bk))).isSome := by
    rw [List.find?_isSome]
    exact ⟨p, hp, by simp [hpk]⟩
  obtain ⟨q, hq⟩ := Option.isSome_iff_exists.mp hsome
  have hq1 : q.1 = bk := by
    have hqp := List.find?_some hq
    simpa using hqp
  have hqmem : q ∈ detect_join_keys dfs := List.mem_of_find?_eq_some hq
  obtain ⟨hq2, hqlen⟩ := detect_join_keys_shape dfs q hqmem
  constructor
  · unfold filesWithKey
    rw [hq]
    show q.2 = presentIn dfs bk
    rw [hq2, hq1]
  · rw [← hq1, ← hq2]
    exact hqlen

/-- An index is in the presence list exactly when its table contains the
column. -/
theorem mem_presentIn (dfs : List Table) (bk : String) (i : Nat)
    (hi : i ∈ List.range dfs.length) :
    i ∈ presentIn dfs bk ↔ bk ∈ (dfs.getD i emptyTable).names := by
  unfold presentIn
  rw [List.mem_filter]
  constructor
  · intro h
    exact of_decide_eq_true h.2
  · intro h
    exact ⟨hi, decide_eq_true h⟩

/-- The indices outside the presence list are exactly the indices of the
tables not containing the key. -/
theorem remainingFiles_eq (dfs : List Table) (bk : String) :
    remainingFiles dfs (presentIn dfs bk) =
      (List.range dfs.length).filter
        (fun i => !(decide (bk ∈ (dfs.getD i emptyTable).names))) := by
  unfold remainingFiles
  apply List.filter_congr
  intro i hi
  congr 1
  exact decide_eq_decide.mpr (mem_presentIn dfs bk i hi)

/-- Inner-join row soundness: every row the merge produces carries a key
value present among the left rows' key values and among the right rows'
key values. -/
theorem mergeInner_key_mem (l r : Table) (key sfx : String)
    (hlk : key ∈ l.names)
    (hrect : ∀ row ∈ l.rows, row.length = l.names.length)
    (row : List Cell) (hrow : row ∈ (mergeInner l r key sfx).rows) :
    row.getD (colIdx l.names key) Cell.na ∈
      l.rows.map (fun x => x.getD (colIdx l.names key) Cell.na) ∧
    row.getD (colIdx l.names key) Cell.na ∈
      r.rows.map (fun x => x.getD (colIdx r.names key) Cell.na) := by
  unfold mergeInner at hrow
  rw [List.mem_flatMap] at hrow
  obtain ⟨lr, hlr, hrow2⟩ := hrow
  rw [List.mem_map] at hrow2
  obtain ⟨rr, hrr, hrw⟩ := hrow2
  have hfil := List.mem_filter.mp hrr
  have hkeyeq : rr.getD (colIdx r.names key) Cell.na =
      lr.getD (colIdx l.names key) Cell.na := of_decide_eq_true hfil.2
  have hlt : colIdx l.names key < lr.length := by
    rw [hrect lr hlr]
    exact List.indexOf_lt_length.mpr hlk
  have hgd : row.getD (colIdx l.names key) Cell.na =
      lr.getD (colIdx l.names key) Cell.na := by
    rw [← hrw]
    exact List.getD_append _ _ _ _ hlt
  rw [hgd]
  constructor
  · rw [List.mem_map]
    exact ⟨lr, hlr, rfl⟩
  · rw [List.mem_map]
    exact ⟨rr, hfil.1, hkeyeq⟩

/-- Claim C2, falsified on the code: two tables joined on `id` with a
collision on `x`, the right-hand file named with two dots. -/
def c2Tables : List Table :=
  [⟨["id", "x"], [false, true], [[.num ⟨1, 1⟩, .str "a"]]⟩,
   ⟨["id", "x"], [false, true], [[.num ⟨1, 1⟩, .str "b"]]⟩]

/-- The file names of the C2 counterexample batch. -/
def c2Names : List String := ["a.csv", "b.v2.csv"]

/-- Claim C2 is false in its collision-naming detail: the joining file
`b.v2.csv` has filename stem `b.v2`, but the code suffixes the colliding
column with `split(".")[0]`, the portion before the first dot, producing
`x_b` rather than `x_b.v2`. -/
theorem c2_counterexample :
    fileStem "b.v2.csv" = "b.v2" ∧
    (smart_join_dataframes c2Tables c2Names).names = ["id", "x", "x_b"] ∧
    ("x_" ++ fileStem "b.v2.csv") ∉ (smart_join_dataframes c2Tables c2Names).names := by
  decide

/-- Claim C2 (amended): for two or more tables whose detector finds a
candidate and whose chosen key is a non-empty name, the join engine
equals the claim's chain — inner joins from the first key-bearing table
through each subsequent key-bearing table, collisions suffixed with an
underscore plus the joining file's before-the-first-dot name (not the full
stem), tables without the key appended afterward by row concatenation —
and each merge step keeps only rows whose key value appears on both
sides. -/
theorem c2_theorem (dfs : List Table) (fileNames : List String) (bk : String)
    (hn : 1 < dfs.length)
    (hbk : best_join_key (detect_join_keys dfs) = some bk)
    (hne : ¬ bk = "") :
    smart_join_dataframes dfs fileNames = specChainJoin dfs fileNames bk ∧
    (∀ l r key sfx, key ∈ l.names →
      (∀ row ∈ l.rows, row.length = l.names.length) →
      ∀ row ∈ (mergeInner l r key sfx).rows,
        row.getD (colIdx l.names key) Cell.na ∈
          l.rows.map (fun x => x.getD (colIdx l.names key) Cell.na) ∧
        row.getD (colIdx l.names key) Cell.na ∈
          r.rows.map (fun x => x.getD (colIdx r.names key) Cell.na)) := by
  constructor
  · have hcne : detect_join_keys dfs ≠ [] := by
      intro h0
      rw [h0] at hbk
      cases hbk
    obtain ⟨hfwk, hlen⟩ := filesWithKey_eq dfs bk hbk
    unfold smart_join_dataframes
    rw [if_neg (by omega), if_neg (by simpa using hcne), hbk]
    show (if bk = "" then _ else _) = _
    rw [if_neg hne]
    unfold specChainJoin
    rw [hfwk, remainingFiles_eq]
    cases hp : presentIn dfs bk with
    | nil => rw [hp] at hlen; simp at hlen
    | cons i0 rest => rfl
  · intro l r key sfx hlk hrect row hrow
    exact mergeInner_key_mem l r key sfx hlk hrect row hrow

/-- Witness for the amended claim C2 at a concrete input: the engine
equals the claim's chain on the counterexample batch with the chosen key
`id`. -/
theorem c2_witness :
    smart_join_dataframes c2Tables c2Names = specChainJoin c2Tables c2Names "id" :=
  (c2_theorem c2Tables c2Names "id" (by decide) (by decide) (by decide)).1

end SmartAgentic
